import Mathlib

/-!
# Counekt front-end scripts: a verification development

Shallow embedding of `app/static/js/base.js` and
`app/static/js/erc360/structure.js`.

* JavaScript strings are embedded as `String`; the string primitives the
  scripts call (`startsWith`, `includes`, `replace` with an anchored regular
  expression) are embedded on the character list.
* DOM state touched by the handlers is an explicit record that is passed
  through each handler.
* Calls into jQuery's ajax layer, the timer queue and the wallet provider are
  embedded as explicit traces, with the behaviour of the outside world
  (server replies, provider replies) given as a parameter.
-/

namespace Counekt

/-! ## Deposit amount field (`structure.js`, lines 16-46) -/

/-- The JavaScript test `string.startsWith(c)` for a one-character needle. -/
def startsWith (string : List Char) (c : Char) : Bool :=
  match string with
  | [] => false
  | x :: _ => x == c

/-- The JavaScript test `string.includes(c)` for a one-character needle. -/
def includes (string : List Char) (c : Char) : Bool :=
  string.any (fun x => x == c)

/-- Length of the match of the regular expression `/^0+/`, when there is one:
the greedy `0+` takes the whole run of zeros at the start of the input. -/
def matchLeadingZeros (string : List Char) : Option Nat :=
  let run := (string.takeWhile (fun x => x == '0')).length
  if run = 0 then none else some run

/-- Length of the match of the regular expression `/^0(?=[1-9])/`, when there
is one: a `0` at the start, with a lookahead (not consumed) for `1` to `9`. -/
def matchZeroBeforeNonzero (string : List Char) : Option Nat :=
  match string with
  | x :: y :: _ => if x = '0' ∧ '1' ≤ y ∧ y ≤ '9' then some 1 else none
  | _ => none

/-- The JavaScript call `string.replace(regex, replacement)` for a regular
expression without the `g` flag that is anchored at the start of the input:
the match, if any, is cut off the front and the replacement put in its place. -/
def replaceAnchored (regex : List Char → Option Nat) (replacement : List Char)
    (string : List Char) : List Char :=
  match regex string with
  | none => string
  | some n => replacement ++ string.drop n

/-- Body of `formatDepositAmountInput` on the character list. -/
def formatChars (string : List Char) : List Char :=
  let string :=
    if startsWith string ',' || startsWith string '.' then '0' :: string else string
  replaceAnchored matchZeroBeforeNonzero []
    (replaceAnchored matchLeadingZeros ['0'] string)

/-- The function `formatDepositAmountInput(string)` of `structure.js`. -/
def formatDepositAmountInput (string : String) : String :=
  String.mk (formatChars string.data)

/-- What the keypress handler does with one event: the value it returns
(`none` when it falls off the end and returns `undefined`) and whether it
called `$(this).blur()`. jQuery cancels the keystroke exactly when the
handler returns `false`. -/
structure KeypressOutcome where
  returned : Option Bool
  blurred : Bool
  deriving DecidableEq, Repr

/-- The keypress handler on `#deposit-amount-input`; `key` is
`event.keyCode || event.charCode` and `value` the text of the field. -/
def keypress (key : Nat) (value : String) : KeypressOutcome :=
  if key < 48 ∨ key > 57 then
    if key = 44 ∨ key = 46 then
      if includes value.data ',' || includes value.data '.' then
        { returned := some false, blurred := false }
      else
        { returned := some true, blurred := false }
    else if key = 13 then
      { returned := some false, blurred := true }
    else
      { returned := some false, blurred := false }
  else
    { returned := none, blurred := false }

/-- The keystroke is cancelled: the handler returned `false`. -/
def rejected (key : Nat) (value : String) : Bool :=
  (keypress key value).returned == some false

/-! ### The three formatting rules, as the specification words them -/

/-- A digit `1` to `9`. -/
def isNonzeroDigit (c : Char) : Bool :=
  c ∈ ['1', '2', '3', '4', '5', '6', '7', '8', '9']

/-- Rule (a): a string that starts with a decimal separator gets a leading zero. -/
def prependZeroRule (s : List Char) : List Char :=
  match s with
  | [] => []
  | c :: rest => if c = ',' ∨ c = '.' then '0' :: c :: rest else c :: rest

/-- Rule (b): a run of leading zeros collapses to a single zero. -/
def collapseZerosRule (s : List Char) : List Char :=
  match s with
  | [] => []
  | c :: rest => if c = '0' then '0' :: rest.dropWhile (fun x => x == '0') else c :: rest

/-- Rule (c): a leading zero is dropped when a nonzero digit follows it. -/
def dropZeroRule (s : List Char) : List Char :=
  match s with
  | z :: d :: rest => if z = '0' ∧ isNonzeroDigit d = true then d :: rest else z :: d :: rest
  | other => other

/-- The three rules applied in order. -/
def formatBySpec (s : String) : String :=
  String.mk (dropZeroRule (collapseZerosRule (prependZeroRule s.data)))

/-! ### The amount field under user actions -/

/-- A decimal separator: comma or dot. -/
def isSeparator (c : Char) : Bool := c == ',' || c == '.'

/-- Number of decimal separators in a text. -/
def separatorCount (s : List Char) : Nat := (s.filter isSeparator).length

/-- The text starts with a zero that is immediately followed by a digit `1` to `9`. -/
def zeroThenNonzero (s : List Char) : Bool :=
  match s with
  | z :: d :: _ => z == '0' && isNonzeroDigit d
  | _ => false

/-- The invariant of the amount field. -/
def AmountInvariant (t : String) : Prop :=
  startsWith t.data ',' = false ∧ startsWith t.data '.' = false ∧
  zeroThenNonzero t.data = false ∧ separatorCount t.data ≤ 1

instance (t : String) : Decidable (AmountInvariant t) := by
  unfold AmountInvariant
  infer_instance

/-- One user action on the amount field: a keystroke with the given key code,
typed with the caret at `position`, or the deletion of `count` characters from
`position` on. -/
inductive Edit where
  | type (key : Nat) (position : Nat)
  | delete (position : Nat) (count : Nat)
  deriving DecidableEq, Repr

/-- The handler on `blur input`: the field's value is replaced by its
formatted value. -/
def onBlurInput (value : String) : String :=
  formatDepositAmountInput value

/-- The field's text after one user action. A keystroke first goes through the
keypress handler: when the handler blurs the field the `blur` handler runs;
when it returns `false` nothing is inserted; otherwise the character is
inserted at the caret and the `input` handler runs. A deletion changes the
text and the `input` handler runs. -/
def applyEdit (value : String) (e : Edit) : String :=
  match e with
  | Edit.type key position =>
    let outcome := keypress key value
    let value := if outcome.blurred then onBlurInput value else value
    if outcome.returned = some false then value
    else
      onBlurInput
        (String.mk (value.data.take position ++ Char.ofNat key :: value.data.drop position))
  | Edit.delete position count =>
    onBlurInput (String.mk (value.data.take position ++ value.data.drop (position + count)))

/-- The field's text after a sequence of user actions on the empty field. -/
def fieldAfter (edits : List Edit) : String :=
  edits.foldl applyEdit ""

/-- Normal form of the amount text: no separator in front, and a zero in front
is followed neither by another zero nor by a nonzero digit. -/
def NormalAmount (s : List Char) : Prop :=
  (∀ c rest, s = c :: rest → c ≠ ',' ∧ c ≠ '.') ∧
  (∀ d rest, s = '0' :: d :: rest → d ≠ '0' ∧ isNonzeroDigit d = false)

/-! ## Tab selector (`structure.js`, lines 2-14) -/

/-- A DOM element, as far as the tab handler looks at it: whether it matches
the selector `#structure-tabs ul li`, its `id`, its class list and its
`data-content` attribute (absent: `none`). -/
structure Element where
  id : String
  isTab : Bool
  classes : List String
  dataContent : Option String
  deriving DecidableEq, Repr

/-- The document: its elements in document order. An element is identified by
its position. -/
abbrev Document := List Element

/-- A jQuery set: the positions of the selected elements. -/
abbrev JQuery := Nat → Bool

/-- jQuery's `hasClass` on one element. -/
def hasClass (e : Element) (c : String) : Bool :=
  e.classes.contains c

/-- jQuery's `addClass` on one element: the class is added unless present. -/
def addClassTo (c : String) (e : Element) : Element :=
  if hasClass e c then e else { e with classes := e.classes ++ [c] }

/-- jQuery's `removeClass` on one element: every occurrence is removed. -/
def removeClassFrom (c : String) (e : Element) : Element :=
  { e with classes := e.classes.filter (fun x => x != c) }

/-- The jQuery set `$(selector)`, for a selector given by the elements it
matches in the current document. -/
def select (matching : Element → Bool) (doc : Document) : JQuery :=
  fun j => match doc[j]? with
    | some e => matching e
    | none => false

/-- The jQuery set `$(this)` for the element at position `i`. -/
def selectThis (i : Nat) : JQuery :=
  fun j => j == i

/-- Applies `f` to the elements of a jQuery set, positions counted from `k`. -/
def updateFrom (k : Nat) (set : JQuery) (f : Element → Element) : Document → Document
  | [] => []
  | e :: es => (if set k then f e else e) :: updateFrom (k + 1) set f es

/-- The call `set.addClass(c)`. -/
def addClass (c : String) (set : JQuery) (doc : Document) : Document :=
  updateFrom 0 set (addClassTo c) doc

/-- The call `set.removeClass(c)`. -/
def removeClass (c : String) (set : JQuery) (doc : Document) : Document :=
  updateFrom 0 set (removeClassFrom c) doc

/-- The document when the handler's activation branch reaches its last line:
every tab deactivated, the clicked tab activated, every content pane hidden. -/
def beforeReveal (i : Nat) (doc : Document) : Document :=
  let doc := removeClass "is-active" (select (fun e => e.isTab) doc) doc
  let doc := addClass "is-active" (selectThis i) doc
  addClass "vanish" (select (fun e => hasClass e "structure-tab-content") doc) doc

/-- The jQuery set `$($(this).data('content'))` of the handler's last line:
the elements that the clicked tab's `data-content` selector selects (none
when the attribute is absent). The selector engine is the parameter `query`. -/
def contentOf (query : String → Element → Bool) (i : Nat) (doc : Document) : JQuery :=
  match (doc[i]?).bind (fun e => e.dataContent) with
  | some selector => select (query selector) doc
  | none => fun _ => false

/-- The click handler on `#structure-tabs ul li`, run with `this` the element
at position `i`. -/
def clickTab (query : String → Element → Bool) (i : Nat) (doc : Document) : Document :=
  match doc[i]? with
  | none => doc
  | some this =>
    if hasClass this "is-active" then
      removeClass "is-active" (select (fun e => e.isTab) doc) doc
    else
      let doc := beforeReveal i doc
      removeClass "vanish" (contentOf query i doc) doc

/-! ## Structure refresh (`structure.js`, lines 74-85) -/

/-- A markup fragment as the page receives it: its text and, as the browser
parses it, the markup of the element with id `structure-modal` that the
fragment holds (`none` when it holds none). -/
structure Markup where
  html : String
  structureModal : Option String
  deriving DecidableEq, Repr

/-- An observable step of `update_structure`, in the order the steps run. -/
inductive Effect where
  | log (message : String)
  | setDisabled (selector : String) (value : Bool)
  | addClass (selector : String) (cls : String)
  | removeClass (selector : String) (cls : String)
  | post (url : String)
  | get (url : String)
  | replaceWith (selector : String) (markup : Markup)
  deriving DecidableEq, Repr

/-- The server as the page sees it: for each url, the reply that reaches the
request's success callback, or `none` when that callback never fires. -/
structure Server where
  post : String → Option String
  get : String → Option Markup

/-- The function `update_structure(address)`, as the trace of its steps. -/
def update_structure (server : Server) (address : String) : List Effect :=
  [Effect.log "updating...",
   Effect.setDisabled "#reload-structure" true,
   Effect.addClass "#reload-structure" "is-loading",
   Effect.post ("/€" ++ address ++ "/update/structure/")] ++
  match server.post ("/€" ++ address ++ "/update/structure/") with
  | none => []
  | some _ =>
    Effect.get ("/€" ++ address ++ "/get/structure/") ::
    match server.get ("/€" ++ address ++ "/get/structure/") with
    | none => []
    | some markup =>
      [Effect.replaceWith "#structure-modal" markup,
       Effect.removeClass "#reload-structure" "is-loading",
       Effect.setDisabled "#reload-structure" false,
       Effect.log "success!"]

/-- An outbound HTTP request. -/
inductive Request where
  | POST (path : String)
  | GET (path : String)
  deriving DecidableEq, Repr

/-- The outbound requests of a trace, in order. -/
def requestsOf : List Effect → List Request
  | [] => []
  | Effect.post url :: rest => Request.POST url :: requestsOf rest
  | Effect.get url :: rest => Request.GET url :: requestsOf rest
  | _ :: rest => requestsOf rest

/-- The part of the page that `update_structure` acts on: the trigger control
`#reload-structure`, the markup of the element that `#structure-modal` selects
(`none` when no element has that id) and the fragments put into the page, in
order. -/
structure Panel where
  reloadDisabled : Bool
  reloadClasses : List String
  structureModal : Option String
  inserted : List String
  deriving DecidableEq, Repr

/-- The effect of one step on the page. -/
def applyEffect (page : Panel) : Effect → Panel
  | Effect.setDisabled "#reload-structure" value => { page with reloadDisabled := value }
  | Effect.addClass "#reload-structure" cls =>
    if page.reloadClasses.contains cls then page
    else { page with reloadClasses := page.reloadClasses ++ [cls] }
  | Effect.removeClass "#reload-structure" cls =>
    { page with reloadClasses := page.reloadClasses.filter (fun x => x != cls) }
  | Effect.replaceWith "#structure-modal" markup =>
    -- `replaceWith` on an empty jQuery set does nothing
    match page.structureModal with
    | none => page
    | some _ =>
      { page with
        structureModal := markup.structureModal
        inserted := page.inserted ++ [markup.html] }
  | _ => page

/-- The page after a trace of steps. -/
def runEffects (page : Panel) (trace : List Effect) : Panel :=
  trace.foldl applyEffect page

/-! ## Retry channel (`base.js`, lines 42-64) -/

/-- What one call of `$.post` does: it throws while being called, or it
returns and the request later fails in transport, or it returns and the
request later succeeds with a response. -/
inductive Attempt where
  | throws
  | fails
  | succeeds (response : String)
  deriving DecidableEq, Repr

/-- The arguments of a call `post(url, success, args)`; the callback is named. -/
structure PostCall where
  url : String
  success : String
  args : List (String × String)
  deriving DecidableEq, Repr

/-- What the browser observes, with the time in milliseconds. -/
inductive BrowserEvent where
  | request (time : Nat) (url : String) (formData : List (String × String))
  | successCalled (time : Nat) (callback : String) (response : String)
  | errorLogged (time : Nat)
  | timerSet (time : Nat) (delay : Nat) (call : PostCall)
  deriving DecidableEq, Repr

/-- The browser: the clock, the number of `$.post` calls made so far, the
events observed so far and the pending timers (due time and the call of
`post` to run then), in the order they were set. -/
structure Browser where
  now : Nat
  calls : Nat
  events : List BrowserEvent
  timers : List (Nat × PostCall)
  deriving DecidableEq, Repr

/-- The function `post(url, success, args)`. `net k` is the behaviour of the
`k`-th call of `$.post`. Only an exception thrown by the call itself reaches
the `catch` block; a request that fails in transport ends there, since no
`error` callback is passed; a request that succeeds reaches `success`. -/
def post (net : Nat → Attempt) (call : PostCall) (b : Browser) : Browser :=
  let formData := call.args.foldl (fun data field => data ++ [field]) []
  match net b.calls with
  | Attempt.throws =>
    { b with
      calls := b.calls + 1
      events := b.events ++ [BrowserEvent.errorLogged b.now,
                             BrowserEvent.timerSet b.now 5000 call]
      timers := b.timers ++ [(b.now + 5000, call)] }
  | Attempt.fails =>
    { b with
      calls := b.calls + 1
      events := b.events ++ [BrowserEvent.request b.now call.url formData] }
  | Attempt.succeeds response =>
    { b with
      calls := b.calls + 1
      events := b.events ++ [BrowserEvent.request b.now call.url formData,
                             BrowserEvent.successCalled b.now call.success response] }

/-- The event loop fires the timer set first, if there is one. -/
def fireTimer (net : Nat → Attempt) (b : Browser) : Browser :=
  match b.timers with
  | [] => b
  | (due, call) :: rest => post net call { b with now := max b.now due, timers := rest }

/-- The event loop, for `fuel` timer firings. -/
def runTimers (net : Nat → Attempt) : Nat → Browser → Browser
  | 0, b => b
  | fuel + 1, b => runTimers net fuel (fireTimer net b)

/-- The browser before anything has happened. -/
def freshBrowser : Browser :=
  { now := 0, calls := 0, events := [], timers := [] }

/-- Number of times the callback named `callback` was invoked. -/
def successCount (callback : String) (events : List BrowserEvent) : Nat :=
  (events.filter (fun e => match e with
    | BrowserEvent.successCalled _ c _ => c == callback
    | _ => false)).length

/-- Number of resubmissions scheduled. -/
def timerCount (events : List BrowserEvent) : Nat :=
  (events.filter (fun e => match e with
    | BrowserEvent.timerSet _ _ _ => true
    | _ => false)).length

/-! ## Wallet transaction initiator (`structure.js`, lines 59-72) -/

/-- The wallet capability as `openDepositWindow` sees it: the result of the
connection check and, for each asynchronous query, the value its promise
resolves with or the error it rejects with. -/
structure Wallet where
  connected : Bool
  networkType : Except String String
  accounts : Except String (List String)
  send : Except String String

/-- A call made by `openDepositWindow`. -/
inductive WalletCall where
  | makeSureWalletConnected
  | getWeb3Provider
  | getNetworkType
  | getAccounts
  | toWei (amount : String) (unit : String)
  | sendTransaction (sender : Option String) (recipient : String) (amount : String) (unit : String)
  | consoleLog (message : String)
  | consoleError (message : String)
  deriving DecidableEq, Repr

/-- The function `openDepositWindow()`: the calls it makes, in order, and how
its promise settles (`Except.error` when an exception escapes). -/
def openDepositWindow (wallet : Wallet) (recipientAddress : String) :
    List WalletCall × Except String Unit :=
  if !wallet.connected then
    ([WalletCall.makeSureWalletConnected], Except.ok ())
  else
    match wallet.networkType with
    | Except.error e =>
      ([WalletCall.makeSureWalletConnected, WalletCall.getWeb3Provider,
        WalletCall.getNetworkType], Except.error e)
    | Except.ok network =>
      match wallet.accounts with
      | Except.error e =>
        -- the `catch` callback logs and yields `undefined`; `accounts[0]` then throws
        ([WalletCall.makeSureWalletConnected, WalletCall.getWeb3Provider,
          WalletCall.getNetworkType, WalletCall.consoleLog (toString (network == "main")),
          WalletCall.getAccounts, WalletCall.consoleLog e],
         Except.error "TypeError")
      | Except.ok accounts =>
        ([WalletCall.makeSureWalletConnected, WalletCall.getWeb3Provider,
          WalletCall.getNetworkType, WalletCall.consoleLog (toString (network == "main")),
          WalletCall.getAccounts, WalletCall.toWei "0.1" "ether",
          WalletCall.sendTransaction accounts[0]? recipientAddress "0.1" "ether"] ++
          (match wallet.send with
           | Except.error e => [WalletCall.consoleError e]
           | Except.ok _ => []),
         Except.ok ())

/-- Number of account-list queries among the calls. -/
def accountQueries (calls : List WalletCall) : Nat :=
  (calls.filter (fun c => c == WalletCall.getAccounts)).length

/-- Number of transaction-send calls among the calls. -/
def transactionSends (calls : List WalletCall) : Nat :=
  (calls.filter (fun c => match c with
    | WalletCall.sendTransaction _ _ _ _ => true
    | _ => false)).length

/-! ## Sample data -/

/-- A selector engine that knows id selectors only: `#x` selects the element
with id `x`. -/
def byId (selector : String) (e : Element) : Bool :=
  selector == "#" ++ e.id

/-- Three tabs A, B, C with their content panes; A is active and its pane is
the visible one. -/
def tabsABC : Document :=
  [{ id := "A", isTab := true, classes := ["is-active"], dataContent := some "#pane-a" },
   { id := "B", isTab := true, classes := [], dataContent := some "#pane-b" },
   { id := "C", isTab := true, classes := [], dataContent := some "#pane-c" },
   { id := "pane-a", isTab := false, classes := ["structure-tab-content"],
     dataContent := none },
   { id := "pane-b", isTab := false, classes := ["structure-tab-content", "vanish"],
     dataContent := none },
   { id := "pane-c", isTab := false, classes := ["structure-tab-content", "vanish"],
     dataContent := none }]

/-- A server whose replies never arrive. -/
def silentServer : Server :=
  { post := fun _ => none, get := fun _ => none }

/-- A server that answers every request. -/
def replyingServer : Server :=
  { post := fun _ => some "ok",
    get := fun _ => some { html := "<div id='structure-modal'>new</div>",
                           structureModal := some "<div id='structure-modal'>new</div>" } }

/-- A server that answers every request, with markup that holds no element
with id `structure-modal`. -/
def bareServer : Server :=
  { post := fun _ => some "ok",
    get := fun _ => some { html := "<div>bare</div>", structureModal := none } }

/-- A page whose trigger control is enabled and not loading. -/
def idlePanel : Panel :=
  { reloadDisabled := false, reloadClasses := ["button"],
    structureModal := some "<div id='structure-modal'>old</div>", inserted := [] }

/-- A network on which the first two requests fail in transport and the third
succeeds. -/
def failsTwiceThenSucceeds (k : Nat) : Attempt :=
  if k < 2 then Attempt.fails else Attempt.succeeds "ok"

/-- A network on which the first two calls of `$.post` throw and the third
request succeeds. -/
def throwsTwiceThenSucceeds (k : Nat) : Attempt :=
  if k < 2 then Attempt.throws else Attempt.succeeds "ok"

/-- A sample submission. -/
def sampleCall : PostCall :=
  { url := "/submit", success := "onSuccess", args := [("name", "counekt")] }

/-- A wallet that is not connected. -/
def disconnectedWallet : Wallet :=
  { connected := false, networkType := Except.ok "main",
    accounts := Except.ok ["0x01"], send := Except.ok "0xhash" }

/-- A connected wallet whose account-list query is rejected. -/
def lockedWallet : Wallet :=
  { connected := true, networkType := Except.ok "main",
    accounts := Except.error "locked", send := Except.ok "0xhash" }

end Counekt

open Counekt

/-! ## Theorems: deposit amount field -/

theorem nz_iff (y : Char) : ('1' ≤ y ∧ y ≤ '9') ↔ isNonzeroDigit y = true := by
  unfold isNonzeroDigit
  constructor
  · rintro ⟨h1, h2⟩
    have h1' : 49 ≤ y.toNat := h1
    have h2' : y.toNat ≤ 57 := h2
    have : y = Char.ofNat y.toNat := (Char.ofNat_toNat y).symm
    rw [this]
    interval_cases y.toNat <;> decide
  · intro h
    simp at h
    rcases h with h | h | h | h | h | h | h | h | h <;> subst h <;> decide

theorem drop_takeWhile_length (p : Char → Bool) (s : List Char) :
    s.drop (s.takeWhile p).length = s.dropWhile p := by
  induction s with
  | nil => rfl
  | cons c rest ih =>
    by_cases h : p c = true
    · simp [List.takeWhile_cons, List.dropWhile_cons, h, ih]
    · simp [List.takeWhile_cons, List.dropWhile_cons, h]

/-- The source formatter and the three rules agree on every character list. -/
theorem formatChars_eq_rules (s : List Char) :
    formatChars s = dropZeroRule (collapseZerosRule (prependZeroRule s)) := by
  have step_b : ∀ t : List Char,
      replaceAnchored matchLeadingZeros ['0'] t = collapseZerosRule t := by
    intro t
    cases t with
    | nil => rfl
    | cons c rest =>
      by_cases h : c = '0'
      · subst h
        have := drop_takeWhile_length (fun x => x == '0') rest
        simp [replaceAnchored, matchLeadingZeros, collapseZerosRule, List.takeWhile_cons, this]
      · simp [replaceAnchored, matchLeadingZeros, collapseZerosRule, List.takeWhile_cons, h]
  have step_c : ∀ t : List Char,
      replaceAnchored matchZeroBeforeNonzero [] t = dropZeroRule t := by
    intro t
    match t with
    | [] => rfl
    | [_] => rfl
    | x :: y :: rest =>
      by_cases h : x = '0' ∧ '1' ≤ y ∧ y ≤ '9'
      · have h2 : isNonzeroDigit y = true := (nz_iff y).1 h.2
        simp [replaceAnchored, matchZeroBeforeNonzero, dropZeroRule, h, h2]
      · have h2 : ¬ (x = '0' ∧ isNonzeroDigit y = true) := by
          rintro ⟨hx, hy⟩
          exact h ⟨hx, (nz_iff y).2 hy⟩
        simp only [replaceAnchored, matchZeroBeforeNonzero, dropZeroRule, if_neg h, if_neg h2]
  have step_a : (if startsWith s ',' || startsWith s '.' then '0' :: s else s)
      = prependZeroRule s := by
    cases s with
    | nil => rfl
    | cons c rest =>
      by_cases h : c = ',' ∨ c = '.'
      · rcases h with h | h <;> subst h <;> simp [startsWith, prependZeroRule]
      · have h1 : c ≠ ',' := fun e => h (Or.inl e)
        have h2 : c ≠ '.' := fun e => h (Or.inr e)
        simp [startsWith, prependZeroRule, h1, h2]
  unfold formatChars
  simp only [step_a, step_b, step_c]

theorem dropWhile_head_false (p : Char → Bool) (s : List Char) (d : Char) (t : List Char)
    (h : s.dropWhile p = d :: t) : p d = false := by
  induction s with
  | nil => simp at h
  | cons c rest ih =>
    by_cases hc : p c = true
    · simp [List.dropWhile_cons, hc] at h
      exact ih h
    · simp [List.dropWhile_cons, hc] at h
      rcases h with ⟨h1, _⟩
      subst h1
      simpa using hc

theorem isNonzeroDigit_ne (d : Char) (h : isNonzeroDigit d = true) :
    d ≠ '0' ∧ d ≠ ',' ∧ d ≠ '.' := by
  refine ⟨?_, ?_, ?_⟩ <;> rintro rfl <;> revert h <;> decide

theorem rules_normal (s : List Char) :
    NormalAmount (dropZeroRule (collapseZerosRule (prependZeroRule s))) := by
  cases s with
  | nil => constructor <;> intro a b h <;> simp [prependZeroRule, collapseZerosRule, dropZeroRule] at h
  | cons c rest =>
    by_cases hsep : c = ',' ∨ c = '.'
    · have hc0 : c ≠ '0' := by rcases hsep with h | h <;> subst h <;> decide
      have hnz : isNonzeroDigit c = false := by rcases hsep with h | h <;> subst h <;> decide
      have : dropZeroRule (collapseZerosRule (prependZeroRule (c :: rest))) = '0' :: c :: rest := by
        simp [prependZeroRule, collapseZerosRule, dropZeroRule, hsep, hc0, hnz, List.dropWhile_cons]
      rw [this]
      constructor
      · intro a b h
        simp at h
        rw [← h.1]
        decide
      · intro d r h
        simp at h
        rw [← h.1]
        exact ⟨hc0, hnz⟩
    · have hpre : prependZeroRule (c :: rest) = c :: rest := by simp [prependZeroRule, hsep]
      rw [hpre]
      have hs1 : c ≠ ',' := fun e => hsep (Or.inl e)
      have hs2 : c ≠ '.' := fun e => hsep (Or.inr e)
      by_cases hz : c = '0'
      · subst hz
        have hcol : collapseZerosRule ('0' :: rest) = '0' :: rest.dropWhile (fun x => x == '0') := by
          simp [collapseZerosRule]
        rw [hcol]
        cases ht : rest.dropWhile (fun x => x == '0') with
        | nil =>
          constructor <;> intro a b h <;> simp [dropZeroRule] at h
          rw [← h.1]
          decide
        | cons d t =>
          have hd : d ≠ '0' := by
            have := dropWhile_head_false _ _ _ _ ht
            simpa using this
          by_cases hnz : isNonzeroDigit d = true
          · have : dropZeroRule ('0' :: d :: t) = d :: t := by simp [dropZeroRule, hnz]
            rw [this]
            obtain ⟨_, h2, h3⟩ := isNonzeroDigit_ne d hnz
            constructor
            · intro a b h
              simp at h
              rw [← h.1]
              exact ⟨h2, h3⟩
            · intro a b h
              simp at h
              exact absurd h.1 hd
          · have : dropZeroRule ('0' :: d :: t) = '0' :: d :: t := by simp [dropZeroRule, hnz]
            rw [this]
            constructor
            · intro a b h
              simp at h
              rw [← h.1]
              decide
            · intro a b h
              simp at h
              rw [← h.1]
              exact ⟨hd, by simpa using hnz⟩
      · have hcol : collapseZerosRule (c :: rest) = c :: rest := by simp [collapseZerosRule, hz]
        rw [hcol]
        have hdrop : dropZeroRule (c :: rest) = c :: rest := by
          cases rest with
          | nil => rfl
          | cons d t => simp [dropZeroRule, hz]
        rw [hdrop]
        constructor
        · intro a b h
          simp at h
          rw [← h.1]
          exact ⟨hs1, hs2⟩
        · intro a b h
          simp at h
          exact absurd h.1 hz

theorem rules_fixed (s : List Char) (h : NormalAmount s) :
    dropZeroRule (collapseZerosRule (prependZeroRule s)) = s := by
  obtain ⟨h1, h2⟩ := h
  cases s with
  | nil => rfl
  | cons c rest =>
    obtain ⟨hs1, hs2⟩ := h1 c rest rfl
    have hpre : prependZeroRule (c :: rest) = c :: rest := by simp [prependZeroRule, hs1, hs2]
    rw [hpre]
    by_cases hz : c = '0'
    · subst hz
      cases rest with
      | nil => rfl
      | cons d t =>
        obtain ⟨hd, hnz⟩ := h2 d t rfl
        simp [collapseZerosRule, dropZeroRule, List.dropWhile_cons, hd, hnz]
    · cases rest with
      | nil => simp [collapseZerosRule, dropZeroRule, hz]
      | cons d t => simp [collapseZerosRule, dropZeroRule, hz]

theorem separatorCount_dropWhile_zero (s : List Char) :
    separatorCount (s.dropWhile (fun x => x == '0')) = separatorCount s := by
  induction s with
  | nil => rfl
  | cons c rest ih =>
    by_cases hc : c = '0'
    · subst hc
      simp only [List.dropWhile_cons, beq_self_eq_true, if_true, ih]
      rfl
    · simp [List.dropWhile_cons, hc]

theorem separatorCount_cons (c : Char) (s : List Char) :
    separatorCount (c :: s) = (if isSeparator c = true then 1 else 0) + separatorCount s := by
  unfold separatorCount
  by_cases h : isSeparator c = true
  · simp [List.filter_cons, h]; omega
  · simp [List.filter_cons, h]

theorem separatorCount_rules (s : List Char) :
    separatorCount (dropZeroRule (collapseZerosRule (prependZeroRule s))) = separatorCount s := by
  have ha : ∀ t, separatorCount (prependZeroRule t) = separatorCount t := by
    intro t
    cases t with
    | nil => rfl
    | cons c rest =>
      by_cases h : c = ',' ∨ c = '.'
      · simp only [prependZeroRule, if_pos h]
        rw [separatorCount_cons '0']
        simp [isSeparator]
      · simp [prependZeroRule, h]
  have hb : ∀ t, separatorCount (collapseZerosRule t) = separatorCount t := by
    intro t
    cases t with
    | nil => rfl
    | cons c rest =>
      by_cases h : c = '0'
      · subst h
        simp only [collapseZerosRule, if_true]
        rw [separatorCount_cons, separatorCount_cons, separatorCount_dropWhile_zero]
      · simp [collapseZerosRule, h]
  have hc : ∀ t, separatorCount (dropZeroRule t) = separatorCount t := by
    intro t
    match t with
    | [] => rfl
    | [_] => rfl
    | z :: d :: rest =>
      by_cases h : z = '0' ∧ isNonzeroDigit d = true
      · simp only [dropZeroRule, if_pos h]
        rw [h.1, separatorCount_cons '0']
        simp [isSeparator]
      · simp only [dropZeroRule, if_neg h]
  rw [hc, hb, ha]

theorem separatorCount_eq_zero (s : List Char)
    (h : (includes s ',' || includes s '.') = false) : separatorCount s = 0 := by
  induction s with
  | nil => rfl
  | cons c rest ih =>
    simp only [includes, List.any_cons, Bool.or_eq_false_iff] at h ih
    obtain ⟨⟨h1, h2⟩, h3, h4⟩ := h
    rw [separatorCount_cons, ih ⟨h2, h4⟩]
    simp [isSeparator, h1, h3]

theorem separatorCount_insert (s : List Char) (p : Nat) (c : Char) :
    separatorCount (s.take p ++ c :: s.drop p)
      = (if isSeparator c = true then 1 else 0) + separatorCount s := by
  have h : separatorCount s = separatorCount (s.take p) + separatorCount (s.drop p) := by
    have h0 : separatorCount (s.take p ++ s.drop p)
        = separatorCount (s.take p) + separatorCount (s.drop p) := by
      unfold separatorCount
      rw [List.filter_append, List.length_append]
    rwa [List.take_append_drop] at h0
  have h2 : separatorCount (s.take p ++ c :: s.drop p)
      = separatorCount (s.take p) + separatorCount (c :: s.drop p) := by
    simp [separatorCount, List.filter_append]
  rw [h2, separatorCount_cons, h]
  omega

theorem separatorCount_delete (s : List Char) (p n : Nat) :
    separatorCount (s.take p ++ s.drop (p + n)) ≤ separatorCount s := by
  have hsub : (s.take p ++ s.drop (p + n)).Sublist s := by
    conv_rhs => rw [← List.take_append_drop p s]
    apply List.Sublist.append_left
    rw [← List.drop_drop]
    exact List.drop_sublist n _
  exact (hsub.filter _).length_le

theorem formatDepositAmountInput_data (s : String) :
    (formatDepositAmountInput s).data
      = dropZeroRule (collapseZerosRule (prependZeroRule s.data)) := by
  simp [formatDepositAmountInput, formatChars_eq_rules]

theorem normal_startsWith (s : List Char) (h : NormalAmount s) :
    startsWith s ',' = false ∧ startsWith s '.' = false ∧ zeroThenNonzero s = false := by
  obtain ⟨h1, h2⟩ := h
  match s with
  | [] => exact ⟨rfl, rfl, rfl⟩
  | [c] =>
    obtain ⟨a, b⟩ := h1 c [] rfl
    simp [startsWith, zeroThenNonzero, a, b]
  | c :: d :: rest =>
    obtain ⟨a, b⟩ := h1 c (d :: rest) rfl
    refine ⟨by simp [startsWith, a], by simp [startsWith, b], ?_⟩
    by_cases hc : c = '0'
    · subst hc
      simp [zeroThenNonzero, (h2 d rest rfl).2]
    · simp [zeroThenNonzero, hc]

theorem formatted_invariant (s : String) (h : separatorCount s.data ≤ 1) :
    AmountInvariant (formatDepositAmountInput s) := by
  have hn := normal_startsWith _ (rules_normal s.data)
  unfold AmountInvariant
  rw [formatDepositAmountInput_data, separatorCount_rules]
  exact ⟨hn.1, hn.2.1, hn.2.2, h⟩

theorem applyEdit_invariant (v : String) (e : Edit) (h : AmountInvariant v) :
    AmountInvariant (applyEdit v e) := by
  have hcount : separatorCount v.data ≤ 1 := h.2.2.2
  have hfmt : AmountInvariant (formatDepositAmountInput v) := formatted_invariant v hcount
  cases e with
  | delete p n =>
    apply formatted_invariant
    exact Nat.le_trans (separatorCount_delete v.data p n) hcount
  | type k p =>
    unfold applyEdit keypress onBlurInput
    by_cases hk : k < 48 ∨ k > 57
    · by_cases hsepkey : k = 44 ∨ k = 46
      · by_cases hinc : (includes v.data ',' || includes v.data '.') = true
        · simpa [hk, hsepkey, hinc] using h
        · have hzero : separatorCount v.data = 0 :=
            separatorCount_eq_zero v.data (by simpa using hinc)
          simp only [hk, hsepkey, hinc, if_true, if_false]
          simp only [Bool.false_eq_true, if_false]
          have : ¬ (some true = some false) := by decide
          simp only [this, if_false]
          apply formatted_invariant
          show separatorCount (v.data.take p ++ Char.ofNat k :: v.data.drop p) ≤ 1
          rw [separatorCount_insert, hzero]
          split <;> omega
      · by_cases h13 : k = 13
        · simpa [hk, hsepkey, h13] using hfmt
        · simpa [hk, hsepkey, h13] using h
    · have hnsep : isSeparator (Char.ofNat k) = false := by
        have h1 : 48 ≤ k := by omega
        have h2 : k ≤ 57 := by omega
        interval_cases k <;> decide
      simp only [hk, if_false]
      simp only [Bool.false_eq_true, if_false]
      have : ¬ ((none : Option Bool) = some false) := by decide
      simp only [this, if_false]
      apply formatted_invariant
      show separatorCount (v.data.take p ++ Char.ofNat k :: v.data.drop p) ≤ 1
      rw [separatorCount_insert, hnsep]
      simpa using hcount

theorem foldl_applyEdit_invariant (edits : List Edit) (v : String) (h : AmountInvariant v) :
    AmountInvariant (edits.foldl applyEdit v) := by
  induction edits generalizing v with
  | nil => exact h
  | cons e rest ih => exact ih _ (applyEdit_invariant v e h)

/-- C6: `formatDepositAmountInput` is idempotent: formatting a formatted text
gives the same text, for every input string. -/
theorem formatDepositAmountInput_idempotent (s : String) :
    formatDepositAmountInput (formatDepositAmountInput s) = formatDepositAmountInput s := by
  have h := rules_fixed _ (rules_normal s.data)
  have h1 := formatDepositAmountInput_data (formatDepositAmountInput s)
  rw [formatDepositAmountInput_data s, h] at h1
  have h2 := formatDepositAmountInput_data s
  cases hs : formatDepositAmountInput (formatDepositAmountInput s) with
  | mk l1 =>
    cases ht : formatDepositAmountInput s with
    | mk l2 =>
      rw [hs] at h1
      rw [ht] at h2
      simp only at h1 h2
      rw [h1, h2]

/-- C7: after any finite sequence of user actions on the empty field
(keystrokes that pass the keypress filter, inserted at any position, and
deletions, each followed by the formatter), the text does not start with a
separator, does not start with a zero followed by a digit 1-9, and holds at
most one separator. -/
theorem amountField_invariant (edits : List Edit) :
    startsWith (fieldAfter edits).data ',' = false ∧
    startsWith (fieldAfter edits).data '.' = false ∧
    zeroThenNonzero (fieldAfter edits).data = false ∧
    separatorCount (fieldAfter edits).data ≤ 1 :=
  foldl_applyEdit_invariant edits "" (by decide)

/-- C8: `formatDepositAmountInput` is the three rules applied in order
(prepend a zero to a leading separator, collapse the leading zeros to one
zero, drop that zero before a digit 1-9), on every string; and it maps
",5" to "0,5", ".5" to "0.5", "00" to "0", "007" to "7" and "0" to "0". -/
theorem formatDepositAmountInput_eq_rules :
    (∀ s : String, formatDepositAmountInput s = formatBySpec s) ∧
    formatDepositAmountInput ",5" = "0,5" ∧
    formatDepositAmountInput ".5" = "0.5" ∧
    formatDepositAmountInput "00" = "0" ∧
    formatDepositAmountInput "007" = "7" ∧
    formatDepositAmountInput "0" = "0" := by
  refine ⟨?_, by decide, by decide, by decide, by decide, by decide⟩
  intro s
  simp [formatDepositAmountInput, formatBySpec, formatChars_eq_rules]

/-- C9: the keypress handler returns `false` exactly when the key is not a
digit code and is not a separator code typed into a text without separator;
digit keystrokes are never rejected, enter is rejected, and the field is
blurred exactly when the key is enter (13). -/
theorem keypress_filter (k : Nat) (v : String) :
    (rejected k v = true ↔
      (k < 48 ∨ k > 57) ∧
        ¬ ((k = 44 ∨ k = 46) ∧ includes v.data ',' = false ∧ includes v.data '.' = false)) ∧
    (48 ≤ k ∧ k ≤ 57 → rejected k v = false) ∧
    rejected 13 v = true ∧
    ((keypress k v).blurred = true ↔ k = 13) := by
  refine ⟨?_, ?_, ?_, ?_⟩
  · unfold rejected keypress
    by_cases hk : k < 48 ∨ k > 57
    · by_cases hs : k = 44 ∨ k = 46
      · by_cases hinc : (includes v.data ',' || includes v.data '.') = true
        · have : ¬ (includes v.data ',' = false ∧ includes v.data '.' = false) := by
            intro ⟨a, b⟩
            simp [a, b] at hinc
          simp [hk, hs, hinc, this]
        · have : includes v.data ',' = false ∧ includes v.data '.' = false := by
            simpa using hinc
          simp [hk, hs, this]
      · by_cases h13 : k = 13 <;> simp [hk, hs, h13]
    · simp [hk]
  · intro ⟨h1, h2⟩
    have hk : ¬ (k < 48 ∨ k > 57) := by omega
    simp [rejected, keypress, hk]
  · simp [rejected, keypress]
  · unfold keypress
    by_cases hk : k < 48 ∨ k > 57
    · by_cases hs : k = 44 ∨ k = 46
      · have : k ≠ 13 := by omega
        by_cases hinc : (includes v.data ',' || includes v.data '.') = true <;>
          simp [hk, hs, hinc, this]
      · by_cases h13 : k = 13 <;> simp [hk, hs, h13]
    · have : k ≠ 13 := by omega
      simp [hk, this]

/-- C9, at concrete inputs: a dot typed into "3," is rejected, a comma typed
into the empty field is accepted, and the digit 5 typed into "3," is accepted. -/
theorem keypress_filter_witness :
    rejected 46 "3," = true ∧ rejected 44 "" = false ∧
    (48 ≤ 53 ∧ 53 ≤ 57) ∧ rejected 53 "3," = false :=
  ⟨by decide, by decide, by decide, (keypress_filter 53 "3,").2.1 (by decide)⟩

/-! ## Theorems: tab selector -/

theorem updateFrom_get (set : JQuery) (f : Element → Element) (doc : Document)
    (k j : Nat) :
    (updateFrom k set f doc)[j]? = (doc[j]?).map (fun e => if set (k + j) then f e else e) := by
  induction doc generalizing k j with
  | nil => simp [updateFrom]
  | cons e es ih =>
    cases j with
    | zero => simp [updateFrom]
    | succ j =>
      simp only [updateFrom, List.getElem?_cons_succ, ih]
      have : k + 1 + j = k + (j + 1) := by omega
      rw [this]

theorem addClass_get (c : String) (set : JQuery) (doc : Document) (j : Nat) (e : Element)
    (h : doc[j]? = some e) :
    (addClass c set doc)[j]? = some (if set j then addClassTo c e else e) := by
  simp [addClass, updateFrom_get, h]

theorem removeClass_get (c : String) (set : JQuery) (doc : Document) (j : Nat)
    (e : Element) (h : doc[j]? = some e) :
    (removeClass c set doc)[j]? = some (if set j then removeClassFrom c e else e) := by
  simp [removeClass, updateFrom_get, h]

theorem select_get (m : Element → Bool) (doc : Document) (j : Nat) (e : Element)
    (h : doc[j]? = some e) : select m doc j = m e := by
  simp [select, h]

theorem hasClass_addClassTo (c c' : String) (e : Element) :
    hasClass (addClassTo c e) c' = (hasClass e c' || c' == c) := by
  unfold addClassTo
  by_cases h : hasClass e c = true
  · simp only [h, if_true]
    by_cases hc : c' = c
    · subst hc; simp [h]
    · simp [hc]
  · simp only [h, if_false]
    rw [Bool.eq_iff_iff]
    simp [hasClass]

theorem hasClass_removeClassFrom (c c' : String) (e : Element) :
    hasClass (removeClassFrom c e) c' = (hasClass e c' && c' != c) := by
  simp only [hasClass, removeClassFrom]
  rw [Bool.eq_iff_iff]
  simp [List.mem_filter]

theorem isTab_addClassTo (c : String) (e : Element) : (addClassTo c e).isTab = e.isTab := by
  unfold addClassTo
  split <;> rfl

theorem isTab_removeClassFrom (c : String) (e : Element) :
    (removeClassFrom c e).isTab = e.isTab := rfl

theorem updateFrom_length (set : JQuery) (f : Element → Element) (doc : Document) (k : Nat) :
    (updateFrom k set f doc).length = doc.length := by
  induction doc generalizing k with
  | nil => rfl
  | cons e es ih => simp [updateFrom, ih]

/-- C3, as the code has it: clicking a tab that is active leaves no tab active
and changes nothing else: an element that is not a tab is left as it was, and
a tab loses the class `is-active` only; in particular a content pane is hidden
afterwards exactly when it was hidden before. -/
theorem clickTab_active (query : String → Element → Bool) (doc : Document) (i : Nat)
    (this : Element) (hthis : doc[i]? = some this)
    (hactive : hasClass this "is-active" = true) :
    (clickTab query i doc).length = doc.length ∧
    ∀ (j : Nat) (e : Element), doc[j]? = some e →
      ∃ e' : Element, (clickTab query i doc)[j]? = some e' ∧
        e'.isTab = e.isTab ∧
        (e'.isTab = true → hasClass e' "is-active" = false) ∧
        (∀ c, c ≠ "is-active" → hasClass e' c = hasClass e c) ∧
        (e.isTab = false → e' = e) ∧
        e'.id = e.id ∧ e'.dataContent = e.dataContent := by
  have hclick : clickTab query i doc
      = removeClass "is-active" (select (fun e => e.isTab) doc) doc := by
    simp [clickTab, hthis, hactive]
  rw [hclick]
  refine ⟨updateFrom_length _ _ _ _, ?_⟩
  intro j e hj
  have h1 := removeClass_get "is-active" (select (fun e => e.isTab) doc) doc j e hj
  rw [select_get _ doc j e hj] at h1
  refine ⟨_, h1, ?_, ?_, ?_, ?_, ?_, ?_⟩
  rotate_left 3
  · intro ht
    simp [ht]
  · by_cases ht : e.isTab = true <;> simp [ht, removeClassFrom]
  · by_cases ht : e.isTab = true <;> simp [ht, removeClassFrom]
  · by_cases ht : e.isTab = true <;> simp [ht, isTab_removeClassFrom]
  · by_cases ht : e.isTab = true
    · simp [ht, hasClass_removeClassFrom]
    · simp [ht]
  · intro c hc
    by_cases ht : e.isTab = true
    · simp [ht, hasClass_removeClassFrom, hc]
    · simp [ht]

/-- C3, at a concrete input: A is the active tab of `tabsABC`; after a click on
A the document has its six elements and the pane of A, visible before, is the
element it was and still lacks the class `vanish`. -/
theorem clickTab_active_witness :
    hasClass { id := "A", isTab := true, classes := ["is-active"],
               dataContent := some "#pane-a" } "is-active" = true ∧
    (clickTab byId 0 tabsABC).length = 6 ∧
    ∃ pane : Element, (clickTab byId 0 tabsABC)[3]? = some pane ∧
      hasClass pane "vanish" = false ∧
      pane = { id := "pane-a", isTab := false, classes := ["structure-tab-content"],
               dataContent := none } :=
  ⟨by decide, (clickTab_active byId tabsABC 0 _ rfl (by decide)).1,
   match (clickTab_active byId tabsABC 0 _ rfl (by decide)).2 3 _ rfl with
   | ⟨pane, h1, _, _, h4, h5, _⟩ =>
     ⟨pane, h1, (h4 "vanish" (by decide)).trans (by decide), h5 rfl⟩⟩

/-- C3 as stated fails: in `tabsABC` the tab A is active and its pane visible;
after a click on A the pane, a `.structure-tab-content` element, does not carry
the class `vanish`. -/
theorem clickTab_active_pane_not_hidden :
    (tabsABC[0]?).map (fun e => (e.isTab, hasClass e "is-active")) = some (true, true) ∧
    ((clickTab byId 0 tabsABC)[3]?).map
      (fun e => (hasClass e "structure-tab-content", hasClass e "vanish"))
      = some (true, false) := by
  decide

/-- C10: clicking a tab that is not active leaves exactly the clicked tab
active, and leaves a content pane visible exactly when it is among the
elements that the clicked tab's `data-content` selector selects; every other
content pane is hidden, whatever was active or visible before. -/
theorem clickTab_inactive (query : String → Element → Bool) (doc : Document) (i : Nat)
    (this : Element) (hthis : doc[i]? = some this) (htab : this.isTab = true)
    (hinactive : hasClass this "is-active" = false) :
    (clickTab query i doc).length = doc.length ∧
    (∃ t : Element, (clickTab query i doc)[i]? = some t ∧ t.isTab = true ∧
      hasClass t "is-active" = true) ∧
    ∀ (j : Nat) (e : Element), doc[j]? = some e →
      ∃ e' : Element, (clickTab query i doc)[j]? = some e' ∧
        e'.isTab = e.isTab ∧
        hasClass e' "structure-tab-content" = hasClass e "structure-tab-content" ∧
        (e'.isTab = true → (hasClass e' "is-active" = true ↔ j = i)) ∧
        (hasClass e' "structure-tab-content" = true →
          (hasClass e' "vanish" = false ↔ contentOf query i (beforeReveal i doc) j = true)) := by
  have hclick : clickTab query i doc
      = removeClass "vanish" (contentOf query i (beforeReveal i doc)) (beforeReveal i doc) := by
    simp [clickTab, hthis, hinactive]
  rw [hclick]
  have n1 : ("is-active" == "vanish") = false := by decide
  have n2 : ("structure-tab-content" == "vanish") = false := by decide
  have n3 : ("structure-tab-content" == "is-active") = false := by decide
  have n4 : ("vanish" == "is-active") = false := by decide
  have n1' : ("is-active" != "vanish") = true := by decide
  have n2' : ("structure-tab-content" != "vanish") = true := by decide
  have n3' : ("structure-tab-content" != "is-active") = true := by decide
  have main : ∀ (j : Nat) (e : Element), doc[j]? = some e →
      ∃ e' : Element,
        (removeClass "vanish" (contentOf query i (beforeReveal i doc)) (beforeReveal i doc))[j]?
          = some e' ∧
        e'.isTab = e.isTab ∧
        hasClass e' "structure-tab-content" = hasClass e "structure-tab-content" ∧
        (e'.isTab = true → (hasClass e' "is-active" = true ↔ j = i)) ∧
        (hasClass e' "structure-tab-content" = true →
          (hasClass e' "vanish" = false ↔
            contentOf query i (beforeReveal i doc) j = true)) := ?_
  · refine ⟨?_, ?_, main⟩
    · simp [removeClass, beforeReveal, addClass, updateFrom_length]
    · obtain ⟨t, h1, h2, _, h4, _⟩ := main i this hthis
      exact ⟨t, h1, h2.trans htab, (h4 (h2.trans htab)).2 rfl⟩
  intro j e hj
  have h1 := removeClass_get "is-active" (select (fun e => e.isTab) doc) doc j e hj
  rw [select_get _ doc j e hj] at h1
  have h2 := addClass_get "is-active" (selectThis i)
    (removeClass "is-active" (select (fun e => e.isTab) doc) doc) j _ h1
  have h3 := addClass_get "vanish"
    (select (fun e => hasClass e "structure-tab-content")
      (addClass "is-active" (selectThis i)
        (removeClass "is-active" (select (fun e => e.isTab) doc) doc)))
    (addClass "is-active" (selectThis i)
      (removeClass "is-active" (select (fun e => e.isTab) doc) doc)) j _ h2
  rw [select_get _ _ j _ h2] at h3
  have h4 := removeClass_get "vanish" (contentOf query i (beforeReveal i doc))
    (beforeReveal i doc) j _ h3
  refine ⟨_, h4, ?_⟩
  rcases eq_or_ne j i with hji | hji
  · subst hji
    by_cases ht : e.isTab = true <;>
    by_cases hp : hasClass e "structure-tab-content" = true <;>
    by_cases hc : contentOf query j (beforeReveal j doc) j = true <;>
    simp [selectThis, ht, hp, hc, hasClass_addClassTo, hasClass_removeClassFrom,
      isTab_addClassTo, isTab_removeClassFrom, n1, n2, n3, n4, n1', n2', n3']
  · by_cases ht : e.isTab = true <;>
    by_cases hp : hasClass e "structure-tab-content" = true <;>
    by_cases hc : contentOf query i (beforeReveal i doc) j = true <;>
    simp [selectThis, ht, hji, hp, hc, hasClass_addClassTo, hasClass_removeClassFrom,
      isTab_addClassTo, isTab_removeClassFrom, n1, n2, n3, n4, n1', n2', n3']

theorem addClassTo_node (c : String) (e : Element) :
    addClassTo c e = { e with classes := (addClassTo c e).classes } := by
  unfold addClassTo
  split <;> rfl

theorem beforeReveal_get (i : Nat) (doc : Document) (k : Nat) (e : Element)
    (hk : doc[k]? = some e) :
    ∃ cs : List String, (beforeReveal i doc)[k]? = some { e with classes := cs } := by
  have h1 := removeClass_get "is-active" (select (fun e => e.isTab) doc) doc k e hk
  have h2 := addClass_get "is-active" (selectThis i)
    (removeClass "is-active" (select (fun e => e.isTab) doc) doc) k _ h1
  have h3 := addClass_get "vanish"
    (select (fun e => hasClass e "structure-tab-content")
      (addClass "is-active" (selectThis i)
        (removeClass "is-active" (select (fun e => e.isTab) doc) doc)))
    (addClass "is-active" (selectThis i)
      (removeClass "is-active" (select (fun e => e.isTab) doc) doc)) k _ h2
  have h3' : (beforeReveal i doc)[k]? = _ := h3
  rw [h3']
  have hadd : ∀ (c : String) (cs : List String),
      ∃ cs', addClassTo c { e with classes := cs } = { e with classes := cs' } := by
    intro c cs
    exact ⟨_, addClassTo_node c { e with classes := cs }⟩
  have e1 : ∃ cs, (if select (fun e => e.isTab) doc k = true then
      removeClassFrom "is-active" e else e) = { e with classes := cs } := by
    split
    · exact ⟨_, rfl⟩
    · exact ⟨_, rfl⟩
  obtain ⟨cs1, hcs1⟩ := e1
  rw [hcs1]
  have e2 : ∃ cs, (if selectThis i k = true then addClassTo "is-active" { e with classes := cs1 }
      else { e with classes := cs1 }) = { e with classes := cs } := by
    split
    · exact hadd _ _
    · exact ⟨_, rfl⟩
  obtain ⟨cs2, hcs2⟩ := e2
  rw [hcs2]
  split
  · obtain ⟨cs3, hcs3⟩ := hadd "vanish" cs2
    exact ⟨cs3, by rw [hcs3]⟩
  · exact ⟨cs2, rfl⟩

theorem beforeReveal_get_none (i : Nat) (doc : Document) (k : Nat) (hk : doc[k]? = none) :
    (beforeReveal i doc)[k]? = none := by
  simp [beforeReveal, addClass, removeClass, updateFrom_get, hk]

/-- The handler changes nothing of an element but its classes: where selectors
do not look at the classes, the set `$($(this).data('content'))` is the one
the selector has in the document before the click. -/
theorem contentOf_beforeReveal (query : String → Element → Bool)
    (hstable : ∀ (selector : String) (e : Element) (cs : List String),
      query selector { e with classes := cs } = query selector e)
    (doc : Document) (i j : Nat) :
    contentOf query i (beforeReveal i doc) j = contentOf query i doc j := by
  unfold contentOf
  cases hdi : doc[i]? with
  | none =>
    rw [beforeReveal_get_none i doc i hdi]
    rfl
  | some t =>
    obtain ⟨cs, hcs⟩ := beforeReveal_get i doc i t hdi
    rw [hcs]
    simp only [Option.bind]
    cases hsel : t.dataContent with
    | none => rfl
    | some selector =>
      simp only [select]
      cases hdj : doc[j]? with
      | none => rw [beforeReveal_get_none i doc j hdj]
      | some e =>
        obtain ⟨cs', hcs'⟩ := beforeReveal_get i doc j e hdj
        rw [hcs']
        exact hstable selector e cs'

/-- C10, at a concrete input: in `tabsABC` (A active) a click on B leaves
exactly B active and exactly the pane of B visible. -/
theorem clickTab_inactive_witness :
    hasClass { id := "B", isTab := true, classes := [], dataContent := some "#pane-b" }
      "is-active" = false ∧
    (clickTab byId 1 tabsABC).length = 6 ∧
    (clickTab byId 1 tabsABC).map (fun e => (e.id, hasClass e "is-active"))
      = [("A", false), ("B", true), ("C", false),
         ("pane-a", false), ("pane-b", false), ("pane-c", false)] ∧
    ((clickTab byId 1 tabsABC).filter (fun e => hasClass e "structure-tab-content")).map
      (fun e => (e.id, hasClass e "vanish"))
      = [("pane-a", true), ("pane-b", false), ("pane-c", true)] :=
  ⟨by decide, (clickTab_inactive byId tabsABC 1 _ rfl rfl (by decide)).1, by decide, by decide⟩

/-! ## Theorems: structure refresh -/

/-- C2, as the code has it: the outbound calls of `update_structure(a)` are a
POST to "/€" + a + "/update/structure/" followed, when that POST's success
callback fires, by a GET to "/€" + a + "/get/structure/", and no other request;
for "0xABC" and a server that answers: POST /€0xABC/update/structure/ then
GET /€0xABC/get/structure/. -/
theorem update_structure_requests :
    (∀ (server : Server) (a : String),
      requestsOf (update_structure server a)
        = Request.POST ("/€" ++ a ++ "/update/structure/") ::
            (if (server.post ("/€" ++ a ++ "/update/structure/")).isSome then
              [Request.GET ("/€" ++ a ++ "/get/structure/")]
            else [])) ∧
    requestsOf (update_structure replyingServer "0xABC")
      = [Request.POST "/€0xABC/update/structure/", Request.GET "/€0xABC/get/structure/"] := by
  refine ⟨?_, by decide⟩
  intro server a
  unfold update_structure
  cases h1 : server.post ("/€" ++ a ++ "/update/structure/") with
  | none => simp [requestsOf]
  | some r =>
    cases h2 : server.get ("/€" ++ a ++ "/get/structure/") with
    | none => simp [requestsOf]
    | some m => simp [requestsOf]

/-- C2 as stated fails: whatever the server does, the outbound calls of
`update_structure("0xABC")` are not POST /0xABC/update/structure/ followed by
GET /0xABC/get/structure/. -/
theorem update_structure_requests_not_plain :
    ¬ ∃ server : Server,
      requestsOf (update_structure server "0xABC")
        = [Request.POST "/0xABC/update/structure/", Request.GET "/0xABC/get/structure/"] := by
  rintro ⟨server, h⟩
  have hne : ¬ ("/€" ++ "0xABC" ++ "/update/structure/" = "/0xABC/update/structure/") := by
    decide
  unfold update_structure at h
  simp only [List.cons_append, List.nil_append, requestsOf] at h
  exact hne (Request.POST.inj (List.cons.inj h).1)

/-- C5: `update_structure` first disables the trigger control and marks it
loading, then issues the update request; a get-structure request is issued
only when the update request's success callback fires; and when that callback
never fires, nothing follows the update request: no get-structure request, the
structure panel is not replaced, the trigger control stays disabled and
loading. -/
theorem update_structure_ordering (server : Server) (address : String) (page : Panel) :
    (update_structure server address).take 4
      = [Effect.log "updating...",
         Effect.setDisabled "#reload-structure" true,
         Effect.addClass "#reload-structure" "is-loading",
         Effect.post ("/€" ++ address ++ "/update/structure/")] ∧
    ((∃ url, Effect.get url ∈ update_structure server address) →
      (server.post ("/€" ++ address ++ "/update/structure/")).isSome = true) ∧
    (server.post ("/€" ++ address ++ "/update/structure/") = none →
      (∀ url, Effect.get url ∉ update_structure server address) ∧
      ∀ n, 3 ≤ n →
        (runEffects page ((update_structure server address).take n)).reloadDisabled = true ∧
        "is-loading" ∈
          (runEffects page ((update_structure server address).take n)).reloadClasses ∧
        (runEffects page ((update_structure server address).take n)).structureModal
          = page.structureModal) := by
  refine ⟨?_, ?_, ?_⟩
  · simp [update_structure]
  · rintro ⟨url, hmem⟩
    cases h1 : server.post ("/€" ++ address ++ "/update/structure/") with
    | none => simp [update_structure, h1] at hmem
    | some r => rfl
  · intro h1
    have htrace : update_structure server address
        = [Effect.log "updating...",
           Effect.setDisabled "#reload-structure" true,
           Effect.addClass "#reload-structure" "is-loading",
           Effect.post ("/€" ++ address ++ "/update/structure/")] := by
      simp [update_structure, h1]
    rw [htrace]
    refine ⟨by simp, ?_⟩
    intro n hn
    have hcases : n = 3 ∨ 4 ≤ n := by omega
    rcases hcases with h3 | h4
    · subst h3
      simp only [List.take, runEffects, List.foldl, applyEffect]
      split <;> simp_all
    · have : List.take n [Effect.log "updating...",
           Effect.setDisabled "#reload-structure" true,
           Effect.addClass "#reload-structure" "is-loading",
           Effect.post ("/€" ++ address ++ "/update/structure/")]
          = [Effect.log "updating...",
           Effect.setDisabled "#reload-structure" true,
           Effect.addClass "#reload-structure" "is-loading",
           Effect.post ("/€" ++ address ++ "/update/structure/")] := by
        apply List.take_of_length_le
        simpa using h4
      rw [this]
      simp only [runEffects, List.foldl, applyEffect]
      split <;> simp_all

/-- C5, at concrete inputs: with a server whose replies never arrive, the page
is disabled and loading after the update request and its panel is the old one;
with a server that answers, the get-structure request is in the trace. -/
theorem update_structure_ordering_witness :
    silentServer.post ("/€" ++ "0xABC" ++ "/update/structure/") = none ∧
    ((runEffects idlePanel ((update_structure silentServer "0xABC").take 4)).reloadDisabled
        = true ∧
      "is-loading" ∈
        (runEffects idlePanel ((update_structure silentServer "0xABC").take 4)).reloadClasses ∧
      (runEffects idlePanel ((update_structure silentServer "0xABC").take 4)).structureModal
        = idlePanel.structureModal) ∧
    (∃ url, Effect.get url ∈ update_structure replyingServer "0xABC") ∧
    (replyingServer.post ("/€" ++ "0xABC" ++ "/update/structure/")).isSome = true :=
  ⟨rfl,
   ((update_structure_ordering silentServer "0xABC" idlePanel).2.2 rfl).2 4 (by decide),
   ⟨"/€0xABC/get/structure/", by decide⟩,
   (update_structure_ordering replyingServer "0xABC" idlePanel).2.1
     ⟨"/€0xABC/get/structure/", by decide⟩⟩

/-- A whole refresh replaces the panel and gives the trigger control back; once
the markup put in holds no element with id `structure-modal`, a second refresh
replaces nothing. -/
theorem update_structure_refresh_examples :
    runEffects idlePanel (update_structure replyingServer "0xABC")
      = { reloadDisabled := false, reloadClasses := ["button"],
          structureModal := some "<div id='structure-modal'>new</div>",
          inserted := ["<div id='structure-modal'>new</div>"] } ∧
    runEffects (runEffects idlePanel (update_structure bareServer "0xABC"))
        (update_structure replyingServer "0xABC")
      = { reloadDisabled := false, reloadClasses := ["button"],
          structureModal := none, inserted := ["<div>bare</div>"] } := by
  decide

/-! ## Theorems: retry channel -/

theorem formData_eq (args : List (String × String)) (acc : List (String × String)) :
    args.foldl (fun data field => data ++ [field]) acc = acc ++ args := by
  induction args generalizing acc with
  | nil => simp
  | cons a rest ih => simp [ih]

theorem runTimers_idle (net : Nat → Attempt) (fuel : Nat) (b : Browser)
    (h : b.timers = []) : runTimers net fuel b = b := by
  induction fuel with
  | zero => rfl
  | succ n ih =>
    have : fireTimer net b = b := by simp [fireTimer, h]
    simp [runTimers, this, ih]

/-- C1, what the code does when the first request fails in transport: the
request is sent once, the `catch` block is not reached, no resubmission is
ever scheduled and the success callback is never invoked, however long the
event loop runs. -/
theorem post_transport_failure_not_retried (net : Nat → Attempt) (call : PostCall)
    (fuel : Nat) (hfail : net 0 = Attempt.fails) :
    (runTimers net fuel (post net call freshBrowser)).events
      = [BrowserEvent.request 0 call.url call.args] ∧
    (runTimers net fuel (post net call freshBrowser)).timers = [] ∧
    timerCount (runTimers net fuel (post net call freshBrowser)).events = 0 ∧
    successCount call.success (runTimers net fuel (post net call freshBrowser)).events = 0 := by
  have hpost : post net call freshBrowser
      = { now := 0, calls := 1, events := [BrowserEvent.request 0 call.url call.args],
          timers := [] } := by
    simp [post, freshBrowser, hfail, formData_eq]
  rw [hpost, runTimers_idle net fuel _ rfl]
  simp [timerCount, successCount]

/-- C1, on a network whose first two requests fail in transport and whose third
would succeed: after `post` and five event-loop turns, one request has been
sent, no resubmission is scheduled and `onSuccess` has not been invoked. -/
theorem post_transport_failure_not_retried_witness :
    failsTwiceThenSucceeds 0 = Attempt.fails ∧
    (runTimers failsTwiceThenSucceeds 5
        (post failsTwiceThenSucceeds sampleCall freshBrowser)).events
      = [BrowserEvent.request 0 "/submit" [("name", "counekt")]] ∧
    timerCount (runTimers failsTwiceThenSucceeds 5
        (post failsTwiceThenSucceeds sampleCall freshBrowser)).events = 0 ∧
    successCount "onSuccess" (runTimers failsTwiceThenSucceeds 5
        (post failsTwiceThenSucceeds sampleCall freshBrowser)).events = 0 :=
  ⟨rfl,
   (post_transport_failure_not_retried failsTwiceThenSucceeds sampleCall 5 rfl).1,
   (post_transport_failure_not_retried failsTwiceThenSucceeds sampleCall 5 rfl).2.2.1,
   (post_transport_failure_not_retried failsTwiceThenSucceeds sampleCall 5 rfl).2.2.2⟩

/-- The retry path of `post`: when the first `n` calls of `$.post` throw and
the next request succeeds, `n` event-loop turns later the success callback has
been invoked once, `n` resubmissions were scheduled, 5000 ms apart. -/
theorem post_retries_after_throw (net : Nat → Attempt) (call : PostCall) (response : String)
    (n : Nat) (b : Browser) (htimers : b.timers = [])
    (hthrows : ∀ k, k < n → net (b.calls + k) = Attempt.throws)
    (hok : net (b.calls + n) = Attempt.succeeds response) :
    (runTimers net n (post net call b)).now = b.now + 5000 * n ∧
    (runTimers net n (post net call b)).timers = [] ∧
    timerCount (runTimers net n (post net call b)).events = timerCount b.events + n ∧
    successCount call.success (runTimers net n (post net call b)).events
      = successCount call.success b.events + 1 := by
  induction n generalizing b with
  | zero =>
    have h0 : net b.calls = Attempt.succeeds response := by simpa using hok
    simp [runTimers, post, h0, htimers, timerCount, successCount, List.filter_append]
  | succ n ih =>
    have h0 : net b.calls = Attempt.throws := by simpa using hthrows 0 (by omega)
    have hpost : post net call b
        = { b with
            calls := b.calls + 1
            events := b.events ++ [BrowserEvent.errorLogged b.now,
                                   BrowserEvent.timerSet b.now 5000 call]
            timers := [(b.now + 5000, call)] } := by
      simp [post, h0, htimers]
    have hfire : fireTimer net (post net call b)
        = post net call
            { now := b.now + 5000, calls := b.calls + 1,
              events := b.events ++ [BrowserEvent.errorLogged b.now,
                                     BrowserEvent.timerSet b.now 5000 call],
              timers := [] } := by
      rw [hpost]
      simp [fireTimer]
    have hrun : runTimers net (n + 1) (post net call b)
        = runTimers net n (fireTimer net (post net call b)) := rfl
    rw [hrun, hfire]
    have := ih
      { now := b.now + 5000, calls := b.calls + 1,
        events := b.events ++ [BrowserEvent.errorLogged b.now,
                               BrowserEvent.timerSet b.now 5000 call],
        timers := [] } rfl
      (by
        intro k hk
        have := hthrows (k + 1) (by omega)
        simpa [Nat.add_assoc, Nat.add_comm 1 k] using this)
      (by simpa [Nat.add_assoc, Nat.add_comm 1 n] using hok)
    obtain ⟨h1, h2, h3, h4⟩ := this
    refine ⟨?_, h2, ?_, ?_⟩
    · rw [h1]; simp only []; omega
    · rw [h3]; simp [timerCount, List.filter_append]; omega
    · rw [h4]; simp [successCount, List.filter_append]

/-! ## Theorems: wallet transaction initiator -/

/-- C4: `openDepositWindow` sends no transaction when a precondition step
fails: when the connection check reports false, neither the account-list query
nor `sendTransaction` is called; when the account-list query is rejected,
`sendTransaction` is not called. -/
theorem openDepositWindow_guards (wallet : Wallet) (recipientAddress : String) :
    (wallet.connected = false →
      accountQueries (openDepositWindow wallet recipientAddress).1 = 0 ∧
      transactionSends (openDepositWindow wallet recipientAddress).1 = 0) ∧
    ((∃ e, wallet.accounts = Except.error e) →
      transactionSends (openDepositWindow wallet recipientAddress).1 = 0) := by
  constructor
  · intro h
    simp [openDepositWindow, h, accountQueries, transactionSends]
  · rintro ⟨e, he⟩
    unfold openDepositWindow
    cases hc : wallet.connected with
    | false => simp [transactionSends]
    | true =>
      cases hn : wallet.networkType with
      | error e' => simp [transactionSends]
      | ok network => simp [he, transactionSends]

/-- C4, at concrete inputs: a wallet that is not connected, and a connected
wallet whose account-list query is rejected. -/
theorem openDepositWindow_guards_witness :
    disconnectedWallet.connected = false ∧
    (accountQueries (openDepositWindow disconnectedWallet "0xABC").1 = 0 ∧
      transactionSends (openDepositWindow disconnectedWallet "0xABC").1 = 0) ∧
    (∃ e, lockedWallet.accounts = Except.error e) ∧
    transactionSends (openDepositWindow lockedWallet "0xABC").1 = 0 :=
  ⟨rfl, (openDepositWindow_guards disconnectedWallet "0xABC").1 rfl,
   ⟨"locked", rfl⟩, (openDepositWindow_guards lockedWallet "0xABC").2 ⟨"locked", rfl⟩⟩
